import Mathlib

/-!
Verification of the progress-tracking and certificate-issuance workflow of
the SpsSchool training platform (`courses/models.py`, `courses/serializers.py`,
`courses/views.py`).

The persistent store is modelled as an explicit state (`DB`): association
lists for videos, per-user progress records and certificates, an append-only
audit list, a clock (`now`) standing for `timezone.now()`, and a counter
standing for the `uuid4` certificate-code generator.  Machine integers are
`Int`; Python float arithmetic on percentages is modelled exactly over `ℚ`.
-/

/-- courses/models.py `Video`: parent training id, duration in seconds and
active flag (title/url/order carry no logic and are omitted). -/
structure Video where
  training : Nat
  duration_seconds : Int
  is_active : Bool
deriving DecidableEq, Repr

/-- courses/models.py `UserProgress`: one watch-state row.  `completed_at`
is nullable (`Option`); `last_watched` (auto_now) carries no logic. -/
structure Progress where
  user : Nat
  video : Nat
  progress_seconds : Int
  completed : Bool
  completed_at : Option Nat
deriving DecidableEq, Repr

/-- courses/models.py `UserCertificate`: pair (user, training), unique code
and issue timestamp. -/
structure Certificate where
  user : Nat
  training : Nat
  certificate_code : Nat
  issued_at : Nat
deriving DecidableEq, Repr

/-- core/models.py `AuditLog` row, reduced to the fields the workflow
writes that matter for "state is unchanged" claims. -/
structure AuditEvent where
  action : String
  model_name : String
deriving DecidableEq, Repr

/-- The persistent store plus the ambient clock and code generator. -/
structure DB where
  videos : List (Nat × Video)
  progress : List Progress
  certificates : List Certificate
  audit : List AuditEvent
  now : Nat
  nextCode : Nat
deriving DecidableEq, Repr

/-- Models `Video.objects.get(id=vid)`: first row with the given primary key. -/
def lookupVideo (db : DB) (vid : Nat) : Option Video :=
  (db.videos.find? (fun q => decide (q.1 = vid))).map (fun q => q.2)

/-- courses/models.py `Training.total_videos`:
`self.videos.filter(is_active=True).count()`. -/
def total_videos (db : DB) (t : Nat) : Nat :=
  (db.videos.filter (fun q => decide (q.2.training = t ∧ q.2.is_active = true))).length

/-- The training a progress row's video belongs to (the `video__training`
join; the foreign key guarantees the video exists). -/
def videoTraining (db : DB) (vid : Nat) : Option Nat :=
  (lookupVideo db vid).map Video.training

/-- Models `UserProgress.objects.filter(user=user, video__training=training,
completed=True).count()` — the completed count used both by
`Training.get_user_progress` and by `check_training_completion`.  Note it
does not filter on the video's `is_active` flag. -/
def completedCount (db : DB) (u t : Nat) : Nat :=
  (db.progress.filter
    (fun r => decide (r.user = u ∧ r.completed = true ∧ videoTraining db r.video = some t))).length

/-- courses/models.py `Training.get_user_progress`: 0 when the training has
no active videos, else `(completed_videos / total_videos) * 100`. -/
def get_user_progress (db : DB) (u t : Nat) : ℚ :=
  let total := total_videos db t
  if total = 0 then 0
  else ((completedCount db u t : ℚ) / (total : ℚ)) * 100

/-- courses/models.py `UserProgress.progress_percentage`: 0 when the video's
duration is 0, else `min((progress_seconds / duration_seconds) * 100, 100)`.
`v` is the record's video (`self.video`). -/
def progress_percentage (r : Progress) (v : Video) : ℚ :=
  if v.duration_seconds = 0 then 0
  else min (((r.progress_seconds : ℚ) / (v.duration_seconds : ℚ)) * 100) 100

/-- Models `UserCertificate.objects.filter(user=user, training=training)` being
non-empty. -/
def certExists (db : DB) (u t : Nat) : Bool :=
  db.certificates.any (fun c => decide (c.user = u ∧ c.training = t))

/-- Number of certificate rows for the pair (user, training). -/
def certCount (db : DB) (u t : Nat) : Nat :=
  (db.certificates.filter (fun c => decide (c.user = u ∧ c.training = t))).length

/-- courses/views.py `check_training_completion(user, training)`: count
active videos and the user's completed rows for the training; if all done
and the training is non-empty, `get_or_create` a certificate (fresh code,
issued now) and audit the creation. -/
def check_training_completion (u t : Nat) (db : DB) : DB :=
  let total := total_videos db t
  let completed := completedCount db u t
  if 0 < total ∧ completed = total then
    if certExists db u t then db
    else
      { db with
        certificates := db.certificates ++ [⟨u, t, db.nextCode, db.now⟩],
        nextCode := db.nextCode + 1,
        audit := db.audit ++ [⟨"CREATE", "UserCertificate"⟩] }
  else db

/-- A raw JSON field value of the request body, before deserialization. -/
inductive FieldVal where
  | absent
  | vint (n : Int)
  | vbool (b : Bool)
  | vstr (s : String)
  | vnull
deriving DecidableEq, Repr

/-- The request body of `POST/PUT /videos/{id}/progress/`: the serializer
reads only `progress_seconds` and `completed`. -/
structure Payload where
  progress_seconds : FieldVal
  completed : FieldVal
deriving DecidableEq, Repr

/-- The `serializer.validated_data` after a successful `is_valid()` with
`partial=True`: each field is present or absent. -/
structure Validated where
  progress_seconds : Option Int
  completed : Option Bool
deriving DecidableEq, Repr

/-- The 32-bit range validators Django attaches to a plain `IntegerField`
(and DRF copies onto the serializer field). -/
def intFieldRange (n : Int) : Bool :=
  decide (-2147483648 ≤ n ∧ n ≤ 2147483647)

/-- DRF `IntegerField.to_internal_value` for the model's
`progress_seconds = models.IntegerField(default=0)`: absent is fine under
`partial=True`; any in-range integer is accepted (no `min_value` — the model
field is not `PositiveIntegerField`); numeric strings coerce; booleans,
null and non-numeric strings fail validation. -/
def parseIntField : FieldVal → Option (Option Int)
  | .absent => some none
  | .vint n => if intFieldRange n then some (some n) else none
  | .vstr s =>
    match s.toInt? with
    | some n => if intFieldRange n then some (some n) else none
    | none => none
  | .vbool _ => none
  | .vnull => none

/-- Strings DRF `BooleanField` coerces to `True`. -/
def boolTrueStrings : List String :=
  ["t", "T", "y", "Y", "yes", "Yes", "YES", "true", "True", "TRUE", "on", "On", "ON", "1"]

/-- Strings DRF `BooleanField` coerces to `False`. -/
def boolFalseStrings : List String :=
  ["f", "F", "n", "N", "no", "No", "NO", "false", "False", "FALSE", "off", "Off", "OFF", "0"]

/-- DRF `BooleanField.to_internal_value` for the model's `completed`
field: booleans, 0/1 and the usual truthy/falsy strings coerce; anything
else (including null — the field is not nullable) fails validation. -/
def parseBoolField : FieldVal → Option (Option Bool)
  | .absent => some none
  | .vbool b => some (some b)
  | .vint 0 => some (some false)
  | .vint 1 => some (some true)
  | .vstr s =>
    if boolTrueStrings.contains s then some (some true)
    else if boolFalseStrings.contains s then some (some false)
    else none
  | _ => none

/-- Models `UserProgressUpdateSerializer(progress, data=request.data, partial=True)
.is_valid()`: both declared fields must deserialize; `none` is the 400
path (`serializer.errors`). -/
def validatePayload (p : Payload) : Option Validated :=
  match parseIntField p.progress_seconds, parseBoolField p.completed with
  | some ps, some c => some ⟨ps, c⟩
  | _, _ => none

/-- courses/serializers.py `UserProgressUpdateSerializer.update`: write
`progress_seconds` (last write wins, default keeps the current value); if
`completed` was sent as true and the record was not yet completed, set
`completed = True` and stamp `completed_at = timezone.now()`. -/
def serializer_update (r : Progress) (vd : Validated) (now : Nat) : Progress :=
  let r1 := { r with progress_seconds := vd.progress_seconds.getD r.progress_seconds }
  if vd.completed.getD false = true ∧ r1.completed = false then
    { r1 with completed := true, completed_at := some now }
  else r1

/-- Models `UserProgress.objects.get(user=u, video=vid)` as a lookup: first row
for the pair. -/
def findProgress (db : DB) (u vid : Nat) : Option Progress :=
  db.progress.find? (fun r => decide (r.user = u ∧ r.video = vid))

/-- The row `get_or_create` makes: `defaults={'progress_seconds': 0}` plus
the model defaults `completed=False`, `completed_at=None`. -/
def defaultProgress (u vid : Nat) : Progress :=
  ⟨u, vid, 0, false, none⟩

/-- Models `UserProgress.objects.get_or_create(user=..., video=...,
defaults={'progress_seconds': 0})`: returns the existing row, or inserts
and returns a fresh default row. -/
def getOrCreateProgress (db : DB) (u vid : Nat) : DB × Progress :=
  match findProgress db u vid with
  | some r => (db, r)
  | none =>
    ({ db with progress := db.progress ++ [defaultProgress u vid] }, defaultProgress u vid)

/-- Models `instance.save()`: write the row back under its (user, video) key. -/
def saveProgress (db : DB) (r : Progress) : DB :=
  { db with
    progress := db.progress.map
      (fun q => if decide (q.user = r.user ∧ q.video = r.video) = true then r else q) }

/-- The three outcomes of the endpoint: 200 with the updated record, 400
(`serializer.errors`), 404 (`get_object_or_404`). -/
inductive Resp where
  | ok (r : Progress)
  | badRequest
  | notFound
deriving DecidableEq, Repr

/-- courses/views.py `update_video_progress(request, video_id)`:
`get_object_or_404(Video, id=video_id, is_active=True)`; get-or-create the
progress row; validate; on success run the serializer update, audit
(COMPLETE/UPDATE), and — when the row is completed — run
`check_training_completion` for the video's training. -/
def update_video_progress (u vid : Nat) (p : Payload) (db : DB) : DB × Resp :=
  match lookupVideo db vid with
  | none => (db, .notFound)
  | some v =>
    if v.is_active = false then (db, .notFound)
    else
      let dbr := getOrCreateProgress db u vid
      match validatePayload p with
      | none => (dbr.1, .badRequest)
      | some vd =>
        let r := serializer_update dbr.2 vd dbr.1.now
        let db2 := saveProgress dbr.1 r
        let db3 := { db2 with
          audit := db2.audit ++
            [⟨if r.completed then "COMPLETE" else "UPDATE", "UserProgress"⟩] }
        let db4 := if r.completed then check_training_completion u v.training db3 else db3
        (db4, .ok r)

/-- One request to the progress endpoint. -/
structure Call where
  user : Nat
  video_id : Nat
  payload : Payload
deriving DecidableEq, Repr

/-- A sequence of progress requests, applied in order (each request's
response is dropped; only the store evolves). -/
def runCalls (cs : List Call) (db : DB) : DB :=
  cs.foldl (fun d c => (update_video_progress c.user c.video_id c.payload d).1) db

/-- Spec-side predicate (for comparison with the code): the user has a
completed progress record for every ACTIVE video of the training. -/
def completedAllActive (db : DB) (u t : Nat) : Bool :=
  (db.videos.filter (fun q => decide (q.2.training = t ∧ q.2.is_active = true))).all
    (fun q => db.progress.any (fun r => decide (r.user = u ∧ r.video = q.1 ∧ r.completed = true)))

/-- Number of progress rows for one (user, video) pair. -/
def pairCount (db : DB) (u vid : Nat) : Nat :=
  (db.progress.filter (fun r => decide (r.user = u ∧ r.video = vid))).length

/-- At most one progress row per (user, video) pair — the
`unique_together = ['user', 'video']` constraint. -/
def ProgUnique (db : DB) : Prop :=
  ∀ u vid, pairCount db u vid ≤ 1

/-- Invariant: `completed_at` is set exactly on the completed rows. -/
def CompletedAtInv (db : DB) : Prop :=
  ∀ r ∈ db.progress, r.completed = true ↔ r.completed_at.isSome = true

instance (db : DB) : Decidable (CompletedAtInv db) := by
  unfold CompletedAtInv
  infer_instance

/-- The issuance condition of `check_training_completion`. -/
def issueCond (db : DB) (u t : Nat) : Prop :=
  0 < total_videos db t ∧ completedCount db u t = total_videos db t

instance (db : DB) (u t : Nat) : Decidable (issueCond db u t) := by
  unfold issueCond
  infer_instance

/-- The store `check_training_completion` writes on the issuance path. -/
def issuedDB (db : DB) (u t : Nat) : DB :=
  { db with
    certificates := db.certificates ++ [⟨u, t, db.nextCode, db.now⟩],
    nextCode := db.nextCode + 1,
    audit := db.audit ++ [⟨"CREATE", "UserCertificate"⟩] }

/-- Concrete store: training 1 with one active video (id 1) and one
inactive video (id 2); user 1 has a completed record for the inactive
video only. -/
def dbA : DB :=
  { videos := [(1, ⟨1, 100, true⟩), (2, ⟨1, 100, false⟩)],
    progress := [⟨1, 2, 100, true, some 0⟩],
    certificates := [], audit := [], now := 5, nextCode := 0 }

/-- Concrete store: training 1 with one active video (id 1, 300 s); no
progress yet. -/
def dbB : DB :=
  { videos := [(1, ⟨1, 300, true⟩)],
    progress := [], certificates := [], audit := [], now := 7, nextCode := 0 }

/-- Concrete store: like `dbA` but user 1 has completed BOTH the active
and the inactive video of training 1. -/
def dbC : DB :=
  { videos := [(1, ⟨1, 100, true⟩), (2, ⟨1, 100, false⟩)],
    progress := [⟨1, 1, 100, true, some 0⟩, ⟨1, 2, 100, true, some 0⟩],
    certificates := [], audit := [], now := 5, nextCode := 0 }

/-- Concrete store: training 1 with one active video (id 1, 300 s); user 1
has completed it (at time 3) and holds the certificate. -/
def dbD : DB :=
  { videos := [(1, ⟨1, 300, true⟩)],
    progress := [⟨1, 1, 300, true, some 3⟩],
    certificates := [⟨1, 1, 0, 3⟩], audit := [], now := 9, nextCode := 1 }

/-- Concrete store: training 1 with one active video (id 1, 300 s); user 1
is halfway through it, not yet completed. -/
def dbE : DB :=
  { videos := [(1, ⟨1, 300, true⟩)],
    progress := [⟨1, 1, 50, false, none⟩],
    certificates := [], audit := [], now := 9, nextCode := 0 }

/-! ### Helper lemmas about `check_training_completion` -/

/-- No-op when the training is not fully completed (or empty). -/
theorem check_of_not_complete {db : DB} {u t : Nat}
    (h1 : ¬issueCond db u t) : check_training_completion u t db = db := by
  have h1' : ¬(0 < total_videos db t ∧ completedCount db u t = total_videos db t) := h1
  simp only [check_training_completion]
  rw [if_neg h1']

/-- No-op when a certificate for the pair already exists. -/
theorem check_of_exists {db : DB} {u t : Nat}
    (h2 : certExists db u t = true) : check_training_completion u t db = db := by
  by_cases h1 : 0 < total_videos db t ∧ completedCount db u t = total_videos db t
  · simp only [check_training_completion]
    rw [if_pos h1, if_pos h2]
  · simp only [check_training_completion]
    rw [if_neg h1]

/-- Issuance path: all videos done, and no certificate yet. -/
theorem check_of_issue {db : DB} {u t : Nat}
    (h1 : issueCond db u t) (h2 : certExists db u t = false) :
    check_training_completion u t db = issuedDB db u t := by
  have h1' : 0 < total_videos db t ∧ completedCount db u t = total_videos db t := h1
  simp only [check_training_completion]
  rw [if_pos h1', if_neg (by simp [h2])]
  rfl

/-- The completion check never touches the progress table. -/
theorem check_progress_eq (u t : Nat) (db : DB) :
    (check_training_completion u t db).progress = db.progress := by
  by_cases h1 : issueCond db u t
  · by_cases h2 : certExists db u t = true
    · rw [check_of_exists h2]
    · rw [check_of_issue h1 (by simpa using h2)]
      rfl
  · rw [check_of_not_complete h1]

/-- The completion check never touches the videos table. -/
theorem check_videos_eq (u t : Nat) (db : DB) :
    (check_training_completion u t db).videos = db.videos := by
  by_cases h1 : issueCond db u t
  · by_cases h2 : certExists db u t = true
    · rw [check_of_exists h2]
    · rw [check_of_issue h1 (by simpa using h2)]
      rfl
  · rw [check_of_not_complete h1]

/-- The completion check never touches the clock. -/
theorem check_now_eq (u t : Nat) (db : DB) :
    (check_training_completion u t db).now = db.now := by
  by_cases h1 : issueCond db u t
  · by_cases h2 : certExists db u t = true
    · rw [check_of_exists h2]
    · rw [check_of_issue h1 (by simpa using h2)]
      rfl
  · rw [check_of_not_complete h1]

/-- After the completion check, a certificate for the pair exists iff one
existed before or the issuance condition held. -/
theorem certExists_check (u t : Nat) (db : DB) :
    certExists (check_training_completion u t db) u t
      = (certExists db u t || decide (issueCond db u t)) := by
  by_cases h1 : issueCond db u t
  · by_cases h2 : certExists db u t = true
    · rw [check_of_exists h2, h2]
      simp
    · have h2' : certExists db u t = false := by simpa using h2
      rw [check_of_issue h1 h2', h2']
      have hany : db.certificates.any (fun c => decide (c.user = u ∧ c.training = t))
          = false := h2'
      simp [certExists, issuedDB, List.any_append, hany, h1]
  · rw [check_of_not_complete h1]
    simp [h1]

/-! ### C1, C7, C9, C10 -/

/-- C1 (counterexample): in `dbA`, training 1 has one active video, which
user 1 has NOT completed; yet because the user has a completed record for
the training's inactive video, the completion check issues a certificate.
So "certificate iff all active videos completed" is false. -/
theorem C1_counterexample :
    certExists (check_training_completion 1 1 dbA) 1 1 = true
    ∧ completedAllActive (check_training_completion 1 1 dbA) 1 1 = false
    ∧ 0 < total_videos dbA 1 := by decide

/-- C1 (amended): after the completion check for (user, training), a
certificate exists iff one already existed or the training has more than
zero active videos and the user's completed progress records counted over
ALL videos of the training (active or not) equal the active-video count;
and the check is idempotent, preserving "at most one certificate per
pair". -/
theorem C1_certificate_iff_and_idempotent (db : DB) (u t : Nat) :
    (certExists (check_training_completion u t db) u t
      = (certExists db u t
          || decide (0 < total_videos db t ∧ completedCount db u t = total_videos db t)))
    ∧ check_training_completion u t (check_training_completion u t db)
        = check_training_completion u t db
    ∧ (certCount db u t ≤ 1 → certCount (check_training_completion u t db) u t ≤ 1) := by
  refine ⟨certExists_check u t db, ?_, ?_⟩
  · by_cases h1 : issueCond db u t
    · by_cases h2 : certExists db u t = true
      · rw [check_of_exists h2, check_of_exists h2]
      · have h2' : certExists db u t = false := by simpa using h2
        rw [check_of_issue h1 h2']
        apply check_of_exists
        have hany : db.certificates.any (fun c => decide (c.user = u ∧ c.training = t))
            = false := h2'
        simp [certExists, issuedDB, List.any_append, hany]
    · rw [check_of_not_complete h1, check_of_not_complete h1]
  · intro hle
    by_cases h1 : issueCond db u t
    · by_cases h2 : certExists db u t = true
      · rw [check_of_exists h2]; exact hle
      · have h2' : certExists db u t = false := by simpa using h2
        have h0 : certCount db u t = 0 := by
          have : ¬∃ c, c ∈ db.certificates ∧ (c.user = u ∧ c.training = t) := by
            intro ⟨c, hc, hp⟩
            have : certExists db u t = true := by
              simp [certExists, List.any_eq_true]
              exact ⟨c, hc, hp⟩
            rw [this] at h2'
            cases h2'
          unfold certCount
          rw [List.length_eq_zero, List.filter_eq_nil_iff]
          intro c hc hp
          exact this ⟨c, hc, by simpa using hp⟩
        rw [check_of_issue h1 h2']
        unfold certCount at *
        simp only [issuedDB, List.filter_append, List.length_append, h0]
        simp
    · rw [check_of_not_complete h1]; exact hle

/-- Witness for C1: on `dbB` (no certificate yet) the amended theorem's
hypothesis `certCount ≤ 1` holds and the conclusions evaluate. -/
theorem C1_witness :
    certCount dbB 1 1 ≤ 1 ∧ certCount (check_training_completion 1 1 dbB) 1 1 ≤ 1 :=
  ⟨by decide, (C1_certificate_iff_and_idempotent dbB 1 1).2.2 (by decide)⟩

/-- C7: a training with zero active videos never yields a certificate —
the completion check leaves the store untouched. -/
theorem C7_zero_active_videos_no_certificate (db : DB) (u t : Nat)
    (h : total_videos db t = 0) : check_training_completion u t db = db := by
  rw [check_training_completion]
  simp [h]

/-- Witness for C7: training 2 of `dbA` has no active videos and the check
is a no-op on it. -/
theorem C7_witness :
    total_videos dbA 2 = 0 ∧ check_training_completion 1 2 dbA = dbA :=
  ⟨by decide, C7_zero_active_videos_no_certificate dbA 1 2 (by decide)⟩

/-- C9: a request for a missing or inactive video returns 404 and leaves
the whole store (progress, certificates, audit, everything) unchanged. -/
theorem C9_not_found_no_mutation (db : DB) (u vid : Nat) (p : Payload)
    (h : lookupVideo db vid = none
        ∨ ∃ v, lookupVideo db vid = some v ∧ v.is_active = false) :
    update_video_progress u vid p db = (db, Resp.notFound) := by
  rcases h with h | ⟨v, hv, ha⟩
  · unfold update_video_progress
    rw [h]
  · unfold update_video_progress
    rw [hv]
    simp [ha]

/-- Witness for C9: video 2 of `dbA` is inactive; the endpoint 404s and
returns the store unchanged. -/
theorem C9_witness :
    update_video_progress 1 2 ⟨.vint 10, .absent⟩ dbA = (dbA, Resp.notFound) :=
  C9_not_found_no_mutation dbA 1 2 ⟨.vint 10, .absent⟩
    (Or.inr ⟨⟨1, 100, false⟩, by decide, by decide⟩)

/-- C10: the training-level progress divides the user's completed records
over ALL videos of the training by the count of ACTIVE videos only; in
`dbC` (one active, one inactive video, both completed) it returns 200 %;
and the certificate check compares exactly this mismatched count with the
active-video total. -/
theorem C10_mismatched_counts :
    (100 : ℚ) < get_user_progress dbC 1 1
    ∧ (∀ db : DB, ∀ u t : Nat, total_videos db t ≠ 0 →
        get_user_progress db u t
          = ((completedCount db u t : ℚ) / (total_videos db t : ℚ)) * 100)
    ∧ (∀ db : DB, ∀ u t : Nat,
        certExists (check_training_completion u t db) u t
          = (certExists db u t
              || decide (0 < total_videos db t ∧ completedCount db u t = total_videos db t))) := by
  refine ⟨?_, ?_, ?_⟩
  · have h : get_user_progress dbC 1 1 = 200 := by
      norm_num [get_user_progress, completedCount, total_videos, dbC, videoTraining,
        lookupVideo, List.filter, List.find?]
    rw [h]
    norm_num
  · intro db u t h
    simp only [get_user_progress]
    rw [if_neg h]
  · intro db u t
    exact certExists_check u t db

/-- Witness for C10: the training-progress formula instantiated on `dbC`. -/
theorem C10_witness :
    get_user_progress dbC 1 1
      = ((completedCount dbC 1 1 : ℚ) / (total_videos dbC 1 : ℚ)) * 100 :=
  C10_mismatched_counts.2.1 dbC 1 1 (by decide)

/-- C6 (counterexample): the stored watched-seconds can be negative (the
endpoint accepts them, see C3), and then the derived percentage is
negative — it is NOT clamped into [0, 100]. -/
theorem C6_counterexample :
    progress_percentage ⟨1, 1, -10, false, none⟩ ⟨1, 100, true⟩ = -10
    ∧ ¬(0 : ℚ) ≤ progress_percentage ⟨1, 1, -10, false, none⟩ ⟨1, 100, true⟩ := by
  constructor <;> norm_num [progress_percentage, min_def]

/-- C6 (amended): the percentage is `min(watched/duration × 100, 100)` for
nonzero duration and 0 for zero duration, hence never above 100; it lies
in [0, 100] whenever the stored watched-seconds (and the duration) are
nonnegative, but a negative stored value yields a negative percentage. -/
theorem C6_percentage_range (r : Progress) (v : Video) :
    progress_percentage r v ≤ 100
    ∧ (v.duration_seconds = 0 → progress_percentage r v = 0)
    ∧ (v.duration_seconds ≠ 0 →
        progress_percentage r v
          = min (((r.progress_seconds : ℚ) / (v.duration_seconds : ℚ)) * 100) 100)
    ∧ (0 ≤ r.progress_seconds → 0 ≤ v.duration_seconds → 0 ≤ progress_percentage r v) := by
  refine ⟨?_, ?_, ?_, ?_⟩
  · by_cases h : v.duration_seconds = 0
    · unfold progress_percentage
      rw [if_pos h]
      norm_num
    · unfold progress_percentage
      rw [if_neg h]
      exact min_le_right _ _
  · intro h
    unfold progress_percentage
    rw [if_pos h]
  · intro h
    unfold progress_percentage
    rw [if_neg h]
  · intro hr hd
    by_cases h : v.duration_seconds = 0
    · unfold progress_percentage
      rw [if_pos h]
    · unfold progress_percentage
      rw [if_neg h]
      have hd' : (0 : ℚ) < (v.duration_seconds : ℚ) := by
        exact_mod_cast lt_of_le_of_ne hd (Ne.symm h)
      have hr' : (0 : ℚ) ≤ (r.progress_seconds : ℚ) := by exact_mod_cast hr
      exact le_min (mul_nonneg (div_nonneg hr' hd'.le) (by norm_num)) (by norm_num)

/-- Witness for C6: a record at 150 of 300 seconds has its percentage in
[0, 100]. -/
theorem C6_witness :
    (0 : ℚ) ≤ progress_percentage ⟨1, 1, 150, false, none⟩ ⟨1, 300, true⟩
    ∧ progress_percentage ⟨1, 1, 150, false, none⟩ ⟨1, 300, true⟩ ≤ 100 :=
  ⟨(C6_percentage_range ⟨1, 1, 150, false, none⟩ ⟨1, 300, true⟩).2.2.2
      (by norm_num) (by norm_num),
    (C6_percentage_range ⟨1, 1, 150, false, none⟩ ⟨1, 300, true⟩).1⟩

/-! ### Helper lemmas about the progress table -/

/-- The serializer update never changes the row's user. -/
theorem serializer_update_user (r : Progress) (vd : Validated) (n : Nat) :
    (serializer_update r vd n).user = r.user := by
  simp only [serializer_update]
  split <;> rfl

/-- The serializer update never changes the row's video. -/
theorem serializer_update_video (r : Progress) (vd : Validated) (n : Nat) :
    (serializer_update r vd n).video = r.video := by
  simp only [serializer_update]
  split <;> rfl

/-- On an already-completed row the serializer update keeps `completed`
true and leaves `completed_at` untouched (only the seconds may change). -/
theorem serializer_update_of_completed (r : Progress) (vd : Validated) (n : Nat)
    (h : r.completed = true) :
    (serializer_update r vd n).completed = true
    ∧ (serializer_update r vd n).completed_at = r.completed_at := by
  simp only [serializer_update]
  rw [if_neg]
  · exact ⟨h, rfl⟩
  · intro hc
    have h2 : r.completed = false := hc.2
    rw [h] at h2
    cases h2

/-- The serializer update preserves "`completed_at` set iff completed". -/
theorem serializer_update_inv (r : Progress) (vd : Validated) (n : Nat)
    (h : r.completed = true ↔ r.completed_at.isSome = true) :
    ((serializer_update r vd n).completed = true
      ↔ (serializer_update r vd n).completed_at.isSome = true) := by
  simp only [serializer_update]
  split
  · simp
  · exact h

/-- If the serializer update turned a not-yet-completed row into a
completed one, it stamped `completed_at` with the current time. -/
theorem serializer_update_transition (r : Progress) (vd : Validated) (n : Nat)
    (h : r.completed = false) (h2 : (serializer_update r vd n).completed = true) :
    (serializer_update r vd n).completed_at = some n := by
  simp only [serializer_update] at h2 ⊢
  by_cases hc : vd.completed.getD false = true ∧ r.completed = false
  · rw [if_pos hc]
  · rw [if_neg hc] at h2
    have h3 : r.completed = true := h2
    rw [h] at h3
    cases h3

/-- Replacing every element matching `p` by a fixed element that itself
matches `p` is transparent to a `p`-lookup. -/
theorem find?_replace_same {α : Type} (p : α → Bool) (r : α) (hr : p r = true)
    (l : List α) :
    (l.map (fun q => if p q = true then r else q)).find? p = (l.find? p).map (fun _ => r) := by
  induction l with
  | nil => rfl
  | cons a l ih =>
    cases hd : p a with
    | true =>
      rw [List.map_cons, if_pos hd, List.find?_cons_of_pos _ hr, List.find?_cons_of_pos _ hd]
      rfl
    | false =>
      rw [List.map_cons, if_neg (by simp [hd]), List.find?_cons_of_neg _ (by simp [hd]),
        List.find?_cons_of_neg _ (by simp [hd])]
      exact ih

/-- Replacing `p`-elements by an element that is not a `p'`-match (and
whose `p'`-status agrees with every replaced element's) is transparent to
a `p'`-lookup. -/
theorem find?_replace_ne {α : Type} (p p' : α → Bool) (r : α) (hr : p' r = false)
    (hk : ∀ a, p a = true → p' a = p' r) (l : List α) :
    (l.map (fun q => if p q = true then r else q)).find? p' = l.find? p' := by
  induction l with
  | nil => rfl
  | cons a l ih =>
    cases hd : p a with
    | true =>
      have ha : p' a = false := (hk a hd).trans hr
      rw [List.map_cons, if_pos hd, List.find?_cons_of_neg _ (by simp [hr]),
        List.find?_cons_of_neg _ (by simp [ha])]
      exact ih
    | false =>
      rw [List.map_cons, if_neg (by simp [hd])]
      cases hd2 : p' a with
      | true => rw [List.find?_cons_of_pos _ hd2, List.find?_cons_of_pos _ hd2]
      | false =>
        rw [List.find?_cons_of_neg _ (by simp [hd2]), List.find?_cons_of_neg _ (by simp [hd2])]
        exact ih

/-- Replacing `p`-elements by an element whose `p'`-status agrees with
every replaced element's never changes the `p'`-filter count. -/
theorem length_filter_replace {α : Type} (p p' : α → Bool) (r : α)
    (hk : ∀ a, p a = true → p' a = p' r) (l : List α) :
    ((l.map (fun q => if p q = true then r else q)).filter p').length
      = (l.filter p').length := by
  induction l with
  | nil => rfl
  | cons a l ih =>
    cases hd : p a with
    | true =>
      have ha : p' a = p' r := hk a hd
      cases hd2 : p' r with
      | true =>
        rw [List.map_cons, if_pos hd, List.filter_cons_of_pos hd2,
          List.filter_cons_of_pos (ha.trans hd2)]
        simp [ih]
      | false =>
        rw [List.map_cons, if_pos hd, List.filter_cons_of_neg (by simp [hd2]),
          List.filter_cons_of_neg (by simp [ha.trans hd2])]
        exact ih
    | false =>
      rw [List.map_cons, if_neg (by simp [hd])]
      cases hd2 : p' a with
      | true =>
        rw [List.filter_cons_of_pos hd2, List.filter_cons_of_pos hd2]
        simp [ih]
      | false =>
        rw [List.filter_cons_of_neg (by simp [hd2]), List.filter_cons_of_neg (by simp [hd2])]
        exact ih

/-- The lookup `findProgress` reads only the progress table. -/
theorem findProgress_congr {db1 db2 : DB} (h : db1.progress = db2.progress)
    (u vid : Nat) : findProgress db1 u vid = findProgress db2 u vid := by
  unfold findProgress
  rw [h]

/-- The count `pairCount` reads only the progress table. -/
theorem pairCount_congr {db1 db2 : DB} (h : db1.progress = db2.progress)
    (u vid : Nat) : pairCount db1 u vid = pairCount db2 u vid := by
  unfold pairCount
  rw [h]

/-- A found row matches its key. -/
theorem findProgress_key {db : DB} {u vid : Nat} {r : Progress}
    (h : findProgress db u vid = some r) : r.user = u ∧ r.video = vid := by
  have := List.find?_some h
  simpa using this

/-- Saving a row whose key is `(u, vid)` makes it the result of looking
up `(u, vid)`, provided some row with that key existed. -/
theorem findProgress_save_same (db : DB) (r : Progress) (u vid : Nat)
    (hu : r.user = u) (hv : r.video = vid) :
    findProgress (saveProgress db r) u vid = (findProgress db u vid).map (fun _ => r) := by
  subst hu
  subst hv
  simp only [findProgress, saveProgress]
  exact find?_replace_same _ r (decide_eq_true ⟨rfl, rfl⟩) db.progress

/-- Saving a row does not affect lookups of other keys. -/
theorem findProgress_save_ne (db : DB) (r : Progress) (u vid : Nat)
    (hne : ¬(r.user = u ∧ r.video = vid)) :
    findProgress (saveProgress db r) u vid = findProgress db u vid := by
  simp only [findProgress, saveProgress]
  refine find?_replace_ne _ _ r (decide_eq_false hne) ?_ db.progress
  intro a ha
  have h := of_decide_eq_true ha
  rw [h.1, h.2]

/-- Saving a row never changes per-key row counts. -/
theorem pairCount_save (db : DB) (r : Progress) (u vid : Nat) :
    pairCount (saveProgress db r) u vid = pairCount db u vid := by
  simp only [pairCount, saveProgress]
  refine length_filter_replace _ _ r ?_ db.progress
  intro a ha
  have h := of_decide_eq_true ha
  rw [h.1, h.2]

/-- Running `get_or_create` on a present key returns the store unchanged and the
found row. -/
theorem getOrCreate_of_found {db : DB} {u vid : Nat} {r : Progress}
    (h : findProgress db u vid = some r) :
    getOrCreateProgress db u vid = (db, r) := by
  unfold getOrCreateProgress
  rw [h]

/-- Running `get_or_create` on an absent key appends one default row. -/
theorem getOrCreate_of_none {db : DB} {u vid : Nat}
    (h : findProgress db u vid = none) :
    getOrCreateProgress db u vid
      = ({ db with progress := db.progress ++ [defaultProgress u vid] },
          defaultProgress u vid) := by
  unfold getOrCreateProgress
  rw [h]

/-- Lookup after appending the default row for `(u, vid)`. -/
theorem findProgress_append_default (db : DB) (u vid u' vid' : Nat) :
    findProgress { db with progress := db.progress ++ [defaultProgress u vid] } u' vid'
      = (findProgress db u' vid').or
          ([defaultProgress u vid].find? (fun q => decide (q.user = u' ∧ q.video = vid'))) := by
  simp only [findProgress, List.find?_append]

/-! ### Path lemmas for `update_video_progress` -/

/-- Running `get_or_create` never changes the clock. -/
theorem getOrCreate_now (db : DB) (u vid : Nat) :
    (getOrCreateProgress db u vid).1.now = db.now := by
  unfold getOrCreateProgress
  cases findProgress db u vid <;> rfl

/-- Running `get_or_create` never changes the videos table. -/
theorem getOrCreate_videos (db : DB) (u vid : Nat) :
    (getOrCreateProgress db u vid).1.videos = db.videos := by
  unfold getOrCreateProgress
  cases findProgress db u vid <;> rfl

/-- Running `get_or_create` never changes the certificates table. -/
theorem getOrCreate_certificates (db : DB) (u vid : Nat) :
    (getOrCreateProgress db u vid).1.certificates = db.certificates := by
  unfold getOrCreateProgress
  cases findProgress db u vid <;> rfl

/-- 404 path: missing or inactive video, store untouched. -/
theorem update_notFound_eq (db : DB) (u vid : Nat) (p : Payload)
    (h : lookupVideo db vid = none
        ∨ ∃ v, lookupVideo db vid = some v ∧ v.is_active = false) :
    update_video_progress u vid p db = (db, Resp.notFound) := by
  rcases h with h | ⟨v, hv, ha⟩
  · unfold update_video_progress
    rw [h]
  · unfold update_video_progress
    rw [hv]
    simp [ha]

/-- 400 path: active video but invalid body — the store after the call is
exactly the store `get_or_create` left behind. -/
theorem update_badRequest_eq (db : DB) (u vid : Nat) (p : Payload) (v : Video)
    (hl : lookupVideo db vid = some v) (ha : v.is_active = true)
    (hp : validatePayload p = none) :
    update_video_progress u vid p db
      = ((getOrCreateProgress db u vid).1, Resp.badRequest) := by
  unfold update_video_progress
  rw [hl]
  dsimp only
  rw [if_neg (by simp [ha]), hp]

/-- 200 path: active video and valid body — serializer update of the
fetched-or-created row, save, audit, and the completion check when the
row ends up completed. -/
theorem update_ok_eq (db : DB) (u vid : Nat) (p : Payload) (v : Video)
    (vd : Validated) (dbg : DB) (rec : Progress)
    (hl : lookupVideo db vid = some v) (ha : v.is_active = true)
    (hp : validatePayload p = some vd)
    (hg : getOrCreateProgress db u vid = (dbg, rec)) :
    update_video_progress u vid p db
      = (let r := serializer_update rec vd dbg.now
         let db2 := saveProgress dbg r
         let db3 := { db2 with
           audit := db2.audit
             ++ [⟨if r.completed then "COMPLETE" else "UPDATE", "UserProgress"⟩] }
         ((if r.completed = true then check_training_completion u v.training db3 else db3),
           Resp.ok r)) := by
  unfold update_video_progress
  rw [hl]
  dsimp only
  rw [if_neg (by simp [ha]), hp, hg]

/-- 200 path, split into response and resulting progress table. -/
theorem update_ok_parts (db : DB) (u vid : Nat) (p : Payload) (v : Video)
    (vd : Validated) (dbg : DB) (rec : Progress)
    (hl : lookupVideo db vid = some v) (ha : v.is_active = true)
    (hp : validatePayload p = some vd)
    (hg : getOrCreateProgress db u vid = (dbg, rec)) :
    (update_video_progress u vid p db).2 = Resp.ok (serializer_update rec vd dbg.now)
    ∧ (update_video_progress u vid p db).1.progress
        = (saveProgress dbg (serializer_update rec vd dbg.now)).progress := by
  rw [update_ok_eq db u vid p v vd dbg rec hl ha hp hg]
  dsimp only
  constructor
  · rfl
  · split
    · rw [check_progress_eq]
    · rfl

/-- A key absent from the table has zero rows. -/
theorem pairCount_of_none {db : DB} {u vid : Nat}
    (h : findProgress db u vid = none) : pairCount db u vid = 0 := by
  unfold findProgress at h
  rw [List.find?_eq_none] at h
  unfold pairCount
  rw [List.length_eq_zero, List.filter_eq_nil_iff]
  exact h

/-- Row count per key after appending the default row for `(u2, vid2)`. -/
theorem pairCount_append_default (db : DB) (u2 vid2 u vid : Nat) :
    pairCount { db with progress := db.progress ++ [defaultProgress u2 vid2] } u vid
      = pairCount db u vid + (if u2 = u ∧ vid2 = vid then 1 else 0) := by
  simp only [pairCount, List.filter_append, List.length_append]
  congr 1
  by_cases hk : u2 = u ∧ vid2 = vid
  · rw [if_pos hk]
    simp [defaultProgress, hk.1, hk.2]
  · rw [if_neg hk]
    simp [defaultProgress, hk]

/-- One request preserves "at most one row per (user, video)". -/
theorem progUnique_step (db : DB) (u2 vid2 : Nat) (p : Payload)
    (h : ProgUnique db) :
    ProgUnique (update_video_progress u2 vid2 p db).1 := by
  intro u vid
  cases hl : lookupVideo db vid2 with
  | none =>
    rw [update_notFound_eq db u2 vid2 p (Or.inl hl)]
    exact h u vid
  | some v =>
    by_cases ha : v.is_active = true
    · cases hf2 : findProgress db u2 vid2 with
      | some rec =>
        cases hp : validatePayload p with
        | none =>
          rw [update_badRequest_eq db u2 vid2 p v hl ha hp, getOrCreate_of_found hf2]
          exact h u vid
        | some vd =>
          have hparts := update_ok_parts db u2 vid2 p v vd db rec hl ha hp
            (getOrCreate_of_found hf2)
          rw [pairCount_congr hparts.2 u vid, pairCount_save]
          exact h u vid
      | none =>
        cases hp : validatePayload p with
        | none =>
          rw [update_badRequest_eq db u2 vid2 p v hl ha hp, getOrCreate_of_none hf2,
            pairCount_append_default]
          by_cases hk : u2 = u ∧ vid2 = vid
          · rw [if_pos hk]
            have h0 : pairCount db u vid = 0 := by
              rw [← hk.1, ← hk.2]
              exact pairCount_of_none hf2
            rw [h0]
          · rw [if_neg hk]
            simpa using h u vid
        | some vd =>
          have hparts := update_ok_parts db u2 vid2 p v vd
            { db with progress := db.progress ++ [defaultProgress u2 vid2] }
            (defaultProgress u2 vid2) hl ha hp (getOrCreate_of_none hf2)
          rw [pairCount_congr hparts.2 u vid, pairCount_save, pairCount_append_default]
          by_cases hk : u2 = u ∧ vid2 = vid
          · rw [if_pos hk]
            have h0 : pairCount db u vid = 0 := by
              rw [← hk.1, ← hk.2]
              exact pairCount_of_none hf2
            rw [h0]
          · rw [if_neg hk]
            simpa using h u vid
    · rw [update_notFound_eq db u2 vid2 p (Or.inr ⟨v, hl, by simpa using ha⟩)]
      exact h u vid

/-- A request on a pair that already has a row never changes the number of
progress rows. -/
theorem update_length_of_found (db : DB) (u vid : Nat) (p : Payload) (rec : Progress)
    (hf2 : findProgress db u vid = some rec) :
    ((update_video_progress u vid p db).1).progress.length = db.progress.length := by
  cases hl : lookupVideo db vid with
  | none => rw [update_notFound_eq db u vid p (Or.inl hl)]
  | some v =>
    by_cases ha : v.is_active = true
    · cases hp : validatePayload p with
      | none => rw [update_badRequest_eq db u vid p v hl ha hp, getOrCreate_of_found hf2]
      | some vd =>
        have hparts := update_ok_parts db u vid p v vd db rec hl ha hp
          (getOrCreate_of_found hf2)
        rw [hparts.2]
        simp [saveProgress]
    · rw [update_notFound_eq db u vid p (Or.inr ⟨v, hl, by simpa using ha⟩)]

/-- One request (on any pair) keeps an already-completed row completed,
with its `completed_at` untouched. -/
theorem completed_persists (db : DB) (u2 vid2 : Nat) (p : Payload) (u vid : Nat)
    (r : Progress) (hf : findProgress db u vid = some r) (hc : r.completed = true) :
    ∃ r', findProgress (update_video_progress u2 vid2 p db).1 u vid = some r'
      ∧ r'.completed = true ∧ r'.completed_at = r.completed_at := by
  cases hl : lookupVideo db vid2 with
  | none =>
    rw [update_notFound_eq db u2 vid2 p (Or.inl hl)]
    exact ⟨r, hf, hc, rfl⟩
  | some v =>
    by_cases ha : v.is_active = true
    · cases hf2 : findProgress db u2 vid2 with
      | some rec =>
        cases hp : validatePayload p with
        | none =>
          rw [update_badRequest_eq db u2 vid2 p v hl ha hp, getOrCreate_of_found hf2]
          exact ⟨r, hf, hc, rfl⟩
        | some vd =>
          have hparts := update_ok_parts db u2 vid2 p v vd db rec hl ha hp
            (getOrCreate_of_found hf2)
          have hkrec := findProgress_key hf2
          rw [findProgress_congr hparts.2 u vid]
          by_cases hk : u2 = u ∧ vid2 = vid
          · have hrec : rec = r := by
              rw [hk.1, hk.2] at hf2
              rw [hf2] at hf
              injection hf
            subst hrec
            obtain ⟨hc', hca⟩ := serializer_update_of_completed rec vd db.now hc
            rw [findProgress_save_same db _ u vid
              (by rw [serializer_update_user, hkrec.1, hk.1])
              (by rw [serializer_update_video, hkrec.2, hk.2]), hf]
            exact ⟨serializer_update rec vd db.now, rfl, hc', hca⟩
          · rw [findProgress_save_ne db _ u vid
              (by rw [serializer_update_user, serializer_update_video, hkrec.1, hkrec.2]; exact hk)]
            exact ⟨r, hf, hc, rfl⟩
      | none =>
        have hk : ¬(u2 = u ∧ vid2 = vid) := by
          intro hk
          rw [hk.1, hk.2] at hf2
          rw [hf2] at hf
          cases hf
        cases hp : validatePayload p with
        | none =>
          rw [update_badRequest_eq db u2 vid2 p v hl ha hp, getOrCreate_of_none hf2]
          refine ⟨r, ?_, hc, rfl⟩
          rw [findProgress_append_default, hf]
          rfl
        | some vd =>
          have hparts := update_ok_parts db u2 vid2 p v vd
            { db with progress := db.progress ++ [defaultProgress u2 vid2] }
            (defaultProgress u2 vid2) hl ha hp (getOrCreate_of_none hf2)
          rw [findProgress_congr hparts.2 u vid]
          rw [findProgress_save_ne _ _ u vid
            (by rw [serializer_update_user, serializer_update_video]; exact hk)]
          refine ⟨r, ?_, hc, rfl⟩
          rw [findProgress_append_default, hf]
          rfl
    · rw [update_notFound_eq db u2 vid2 p (Or.inr ⟨v, hl, by simpa using ha⟩)]
      exact ⟨r, hf, hc, rfl⟩

/-- Unfolding one request from a request sequence. -/
theorem runCalls_cons (c : Call) (cs : List Call) (db : DB) :
    runCalls (c :: cs) db
      = runCalls cs (update_video_progress c.user c.video_id c.payload db).1 := rfl

/-- A completed row stays completed (with the same `completed_at`) under
any request sequence. -/
theorem completed_persists_runCalls (cs : List Call) (db : DB) (u vid : Nat)
    (r : Progress) (hf : findProgress db u vid = some r) (hc : r.completed = true) :
    ∃ r', findProgress (runCalls cs db) u vid = some r'
      ∧ r'.completed = true ∧ r'.completed_at = r.completed_at := by
  induction cs generalizing db r with
  | nil => exact ⟨r, hf, hc, rfl⟩
  | cons c cs ih =>
    obtain ⟨r1, hf1, hc1, hca1⟩ :=
      completed_persists db c.user c.video_id c.payload u vid r hf hc
    obtain ⟨r', hf', hc', hca'⟩ := ih _ r1 hf1 hc1
    rw [runCalls_cons]
    exact ⟨r', hf', hc', by rw [hca', hca1]⟩

/-- One request preserves "`completed_at` set iff completed" across the
whole table. -/
theorem completedAtInv_step (db : DB) (u2 vid2 : Nat) (p : Payload)
    (h : CompletedAtInv db) :
    CompletedAtInv (update_video_progress u2 vid2 p db).1 := by
  have hdefault : ∀ u' vid' : Nat,
      ((defaultProgress u' vid').completed = true
        ↔ (defaultProgress u' vid').completed_at.isSome = true) := by
    intro u' vid'
    simp [defaultProgress]
  have happ : CompletedAtInv { db with progress := db.progress ++ [defaultProgress u2 vid2] } := by
    intro x hx
    rw [List.mem_append] at hx
    rcases hx with hx | hx
    · exact h x hx
    · rw [List.mem_singleton] at hx
      subst hx
      exact hdefault u2 vid2
  have hsave : ∀ dbg : DB, CompletedAtInv dbg → ∀ rec vd,
      rec ∈ dbg.progress ∨ rec = defaultProgress u2 vid2 →
      CompletedAtInv (saveProgress dbg (serializer_update rec vd dbg.now)) := by
    intro dbg hinv rec vd hrec x hx
    simp only [saveProgress] at hx
    rw [List.mem_map] at hx
    obtain ⟨a, ha, hax⟩ := hx
    by_cases hcond : decide (a.user = (serializer_update rec vd dbg.now).user
        ∧ a.video = (serializer_update rec vd dbg.now).video) = true
    · rw [if_pos hcond] at hax
      subst hax
      apply serializer_update_inv
      rcases hrec with hrec | hrec
      · exact hinv rec hrec
      · subst hrec
        exact hdefault u2 vid2
    · rw [if_neg hcond] at hax
      subst hax
      exact hinv a ha
  cases hl : lookupVideo db vid2 with
  | none =>
    rw [update_notFound_eq db u2 vid2 p (Or.inl hl)]
    exact h
  | some v =>
    by_cases ha : v.is_active = true
    · cases hf2 : findProgress db u2 vid2 with
      | some rec =>
        cases hp : validatePayload p with
        | none =>
          rw [update_badRequest_eq db u2 vid2 p v hl ha hp, getOrCreate_of_found hf2]
          exact h
        | some vd =>
          have hparts := update_ok_parts db u2 vid2 p v vd db rec hl ha hp
            (getOrCreate_of_found hf2)
          intro x hx
          rw [hparts.2] at hx
          exact hsave db h rec vd (Or.inl (List.mem_of_find?_eq_some hf2)) x hx
      | none =>
        cases hp : validatePayload p with
        | none =>
          rw [update_badRequest_eq db u2 vid2 p v hl ha hp, getOrCreate_of_none hf2]
          exact happ
        | some vd =>
          have hparts := update_ok_parts db u2 vid2 p v vd
            { db with progress := db.progress ++ [defaultProgress u2 vid2] }
            (defaultProgress u2 vid2) hl ha hp (getOrCreate_of_none hf2)
          intro x hx
          rw [hparts.2] at hx
          exact hsave _ happ (defaultProgress u2 vid2) vd (Or.inr rfl) x hx
    · rw [update_notFound_eq db u2 vid2 p (Or.inr ⟨v, hl, by simpa using ha⟩)]
      exact h

/-- The serializer update writes the submitted seconds (last write wins;
the current value is kept when the field was absent). -/
theorem serializer_update_seconds (r : Progress) (vd : Validated) (n : Nat) :
    (serializer_update r vd n).progress_seconds
      = vd.progress_seconds.getD r.progress_seconds := by
  simp only [serializer_update]
  split <;> rfl

/-- Invariant `ProgUnique` is preserved by any request sequence. -/
theorem progUnique_runCalls (cs : List Call) (db : DB) (h : ProgUnique db) :
    ProgUnique (runCalls cs db) := by
  induction cs generalizing db with
  | nil => exact h
  | cons c cs ih =>
    rw [runCalls_cons]
    exact ih _ (progUnique_step db c.user c.video_id c.payload h)

/-- Invariant `CompletedAtInv` is preserved by any request sequence. -/
theorem completedAtInv_runCalls (cs : List Call) (db : DB) (h : CompletedAtInv db) :
    CompletedAtInv (runCalls cs db) := by
  induction cs generalizing db with
  | nil => exact h
  | cons c cs ih =>
    rw [runCalls_cons]
    exact ih _ (completedAtInv_step db c.user c.video_id c.payload h)

/-! ### C2, C3, C4, C5, C8 -/

/-- C2 (counterexample): a wrong-typed body (boolean where the seconds
integer belongs) is rejected with 400, yet — because `get_or_create` runs
before validation — a fresh default ProgressRecord IS created for a pair
that had none.  Also, negative seconds are not treated as malformed at
all: they get a 200. -/
theorem C2_counterexample :
    (update_video_progress 1 1 ⟨.vbool true, .absent⟩ dbB).2 = Resp.badRequest
    ∧ findProgress dbB 1 1 = none
    ∧ findProgress (update_video_progress 1 1 ⟨.vbool true, .absent⟩ dbB).1 1 1
        = some (defaultProgress 1 1)
    ∧ (update_video_progress 1 1 ⟨.vint (-5), .absent⟩ dbB).2
        = Resp.ok ⟨1, 1, -5, false, none⟩ := by
  decide

/-- C2 (amended): an invalid body on an active video yields 400; a pair
that already had a row keeps the store exactly unchanged; but for a pair
with no row, the fetch-or-create step has already inserted (and keeps) a
default row; certificates are never touched on this path. -/
theorem C2_invalid_payload_rejected (db : DB) (u vid : Nat) (p : Payload) (v : Video)
    (hl : lookupVideo db vid = some v) (ha : v.is_active = true)
    (hp : validatePayload p = none) :
    (update_video_progress u vid p db).2 = Resp.badRequest
    ∧ (∀ r, findProgress db u vid = some r → (update_video_progress u vid p db).1 = db)
    ∧ (findProgress db u vid = none →
        (update_video_progress u vid p db).1
          = { db with progress := db.progress ++ [defaultProgress u vid] })
    ∧ (update_video_progress u vid p db).1.certificates = db.certificates := by
  rw [update_badRequest_eq db u vid p v hl ha hp]
  refine ⟨rfl, ?_, ?_, getOrCreate_certificates db u vid⟩
  · intro r hr
    rw [getOrCreate_of_found hr]
  · intro hr
    rw [getOrCreate_of_none hr]

/-- Witness for C2: the invalid body on `dbE` (existing row) 400s and
leaves the store untouched. -/
theorem C2_witness :
    (update_video_progress 1 1 ⟨.vbool true, .absent⟩ dbE).2 = Resp.badRequest
    ∧ (update_video_progress 1 1 ⟨.vbool true, .absent⟩ dbE).1 = dbE :=
  ⟨(C2_invalid_payload_rejected dbE 1 1 ⟨.vbool true, .absent⟩ ⟨1, 300, true⟩
      (by decide) (by decide) (by decide)).1,
    (C2_invalid_payload_rejected dbE 1 1 ⟨.vbool true, .absent⟩ ⟨1, 300, true⟩
      (by decide) (by decide) (by decide)).2.1 ⟨1, 1, 50, false, none⟩ (by decide)⟩

/-- C3 (counterexample): negative watched-seconds are accepted — the call
returns 200 and stores `-10`. -/
theorem C3_counterexample :
    (update_video_progress 1 1 ⟨.vint (-10), .absent⟩ dbB).2
        = Resp.ok ⟨1, 1, -10, false, none⟩
    ∧ findProgress (update_video_progress 1 1 ⟨.vint (-10), .absent⟩ dbB).1 1 1
        = some ⟨1, 1, -10, false, none⟩ := by
  decide

/-- C3 (amended): for any in-range negative integer, the progress update
on an active video succeeds (no validation error) and the negative value
is stored as the row's watched seconds. -/
theorem C3_negative_seconds_accepted (db : DB) (u vid : Nat) (v : Video) (n : Int)
    (hl : lookupVideo db vid = some v) (ha : v.is_active = true)
    (hn1 : -2147483648 ≤ n) (hn2 : n < 0) :
    ∃ r, (update_video_progress u vid ⟨.vint n, .absent⟩ db).2 = Resp.ok r
      ∧ r.progress_seconds = n
      ∧ findProgress (update_video_progress u vid ⟨.vint n, .absent⟩ db).1 u vid
          = some r := by
  have hp : validatePayload ⟨.vint n, .absent⟩ = some ⟨some n, none⟩ := by
    have hr : intFieldRange n = true := decide_eq_true ⟨hn1, by omega⟩
    simp [validatePayload, parseIntField, parseBoolField, hr]
  cases hf : findProgress db u vid with
  | some rec =>
    have hparts := update_ok_parts db u vid ⟨.vint n, .absent⟩ v ⟨some n, none⟩ db rec
      hl ha hp (getOrCreate_of_found hf)
    have hkrec := findProgress_key hf
    refine ⟨serializer_update rec ⟨some n, none⟩ db.now, hparts.1, ?_, ?_⟩
    · rw [serializer_update_seconds]
      rfl
    · rw [findProgress_congr hparts.2 u vid,
        findProgress_save_same db _ u vid (by rw [serializer_update_user]; exact hkrec.1)
          (by rw [serializer_update_video]; exact hkrec.2), hf]
      rfl
  | none =>
    have hparts := update_ok_parts db u vid ⟨.vint n, .absent⟩ v ⟨some n, none⟩
      { db with progress := db.progress ++ [defaultProgress u vid] }
      (defaultProgress u vid) hl ha hp (getOrCreate_of_none hf)
    refine ⟨serializer_update (defaultProgress u vid) ⟨some n, none⟩ db.now,
      hparts.1, ?_, ?_⟩
    · rw [serializer_update_seconds]
      rfl
    · rw [findProgress_congr hparts.2 u vid,
        findProgress_save_same _ _ u vid (by rw [serializer_update_user]; rfl)
          (by rw [serializer_update_video]; rfl),
        findProgress_append_default, hf]
      simp [defaultProgress]

/-- Witness for C3: the amended theorem at `dbB` with `-10`. -/
theorem C3_witness :
    ∃ r, (update_video_progress 1 1 ⟨.vint (-10), .absent⟩ dbB).2 = Resp.ok r
      ∧ r.progress_seconds = -10
      ∧ findProgress (update_video_progress 1 1 ⟨.vint (-10), .absent⟩ dbB).1 1 1
          = some r :=
  C3_negative_seconds_accepted dbB 1 1 ⟨1, 300, true⟩ (-10)
    (by decide) (by decide) (by decide) (by decide)

/-- C4: once a row is completed, any later progress report on the same
(user, video) pair leaves it completed, whatever `completed` flag the
later body carries. -/
theorem C4_completed_one_way (db : DB) (u vid : Nat) (p : Payload) (r r' : Progress)
    (hf : findProgress db u vid = some r) (hc : r.completed = true)
    (hf' : findProgress (update_video_progress u vid p db).1 u vid = some r') :
    r'.completed = true := by
  obtain ⟨r'', hf'', hc'', _⟩ := completed_persists db u vid p u vid r hf hc
  rw [hf''] at hf'
  injection hf' with h2
  rw [← h2]
  exact hc''

/-- Witness for C4: user 1 re-reports video 1 of `dbD` with
`completed=false`; the stored row stays completed. -/
theorem C4_witness :
    findProgress (update_video_progress 1 1 ⟨.vint 10, .vbool false⟩ dbD).1 1 1
        = some ⟨1, 1, 10, true, some 3⟩
    ∧ (⟨1, 1, 10, true, some 3⟩ : Progress).completed = true :=
  ⟨by decide,
    C4_completed_one_way dbD 1 1 ⟨.vint 10, .vbool false⟩ ⟨1, 1, 300, true, some 3⟩
      ⟨1, 1, 10, true, some 3⟩ (by decide) (by decide) (by decide)⟩

/-- C5: starting from a store with at most one row per pair, any request
sequence keeps at most one ProgressRecord per (user, video); and a request
on a pair that already has a row never grows the table. -/
theorem C5_at_most_one_record (db : DB) (h : ProgUnique db) :
    (∀ cs u vid, pairCount (runCalls cs db) u vid ≤ 1)
    ∧ (∀ u vid p rec, findProgress db u vid = some rec →
        ((update_video_progress u vid p db).1).progress.length = db.progress.length) := by
  constructor
  · intro cs u vid
    exact progUnique_runCalls cs db h u vid
  · intro u vid p rec hf
    exact update_length_of_found db u vid p rec hf

/-- Witness for C5: two repeated reports on the same pair leave exactly
one row for it. -/
theorem C5_witness :
    pairCount (runCalls [⟨1, 1, ⟨.vint 5, .absent⟩⟩, ⟨1, 1, ⟨.vint 9, .absent⟩⟩] dbB) 1 1 ≤ 1
    ∧ ((update_video_progress 1 1 ⟨.vint 9, .absent⟩ dbE).1).progress.length
        = dbE.progress.length :=
  ⟨(C5_at_most_one_record dbB (fun u vid => by simp [pairCount, dbB])).1
      [⟨1, 1, ⟨.vint 5, .absent⟩⟩, ⟨1, 1, ⟨.vint 9, .absent⟩⟩] 1 1,
    (C5_at_most_one_record dbE (fun u vid => by
        unfold pairCount
        exact (List.length_filter_le _ _).trans (by norm_num [dbE]))).2
      1 1 ⟨.vint 9, .absent⟩ ⟨1, 1, 50, false, none⟩ (by decide)⟩

/-- C8: (i) "`completed_at` set iff completed" is preserved by any request
sequence; (ii) once completed, every later request keeps the row completed
with `completed_at` unchanged; (iii) the call that flips a row from not
completed to completed stamps `completed_at` with that call's current
time. -/
theorem C8_completed_at_iff_and_set_once (db : DB) (h : CompletedAtInv db) :
    (∀ cs, CompletedAtInv (runCalls cs db))
    ∧ (∀ cs u vid r, findProgress db u vid = some r → r.completed = true →
        ∃ r', findProgress (runCalls cs db) u vid = some r'
          ∧ r'.completed = true ∧ r'.completed_at = r.completed_at)
    ∧ (∀ u vid p r r', findProgress db u vid = some r → r.completed = false →
        (update_video_progress u vid p db).2 = Resp.ok r' → r'.completed = true →
        r'.completed_at = some db.now) := by
  refine ⟨?_, ?_, ?_⟩
  · intro cs
    exact completedAtInv_runCalls cs db h
  · intro cs u vid r hf hc
    exact completed_persists_runCalls cs db u vid r hf hc
  · intro u vid p r r' hf hcf hresp hcomp
    cases hl : lookupVideo db vid with
    | none =>
      rw [update_notFound_eq db u vid p (Or.inl hl)] at hresp
      simp at hresp
    | some v =>
      by_cases ha : v.is_active = true
      · cases hp : validatePayload p with
        | none =>
          rw [update_badRequest_eq db u vid p v hl ha hp] at hresp
          simp at hresp
        | some vd =>
          have hparts := update_ok_parts db u vid p v vd db r hl ha hp
            (getOrCreate_of_found hf)
          rw [hparts.1] at hresp
          injection hresp with h2
          rw [← h2] at hcomp
          rw [← h2]
          exact serializer_update_transition r vd db.now hcf hcomp
      · rw [update_notFound_eq db u vid p (Or.inr ⟨v, hl, by simpa using ha⟩)] at hresp
        simp at hresp

/-- Witness for C8: the three parts instantiated on `dbD`/`dbE`. -/
theorem C8_witness :
    CompletedAtInv (runCalls [⟨1, 1, ⟨.vint 10, .vbool false⟩⟩] dbD)
    ∧ (∃ r', findProgress (runCalls [⟨1, 1, ⟨.vint 10, .vbool false⟩⟩] dbD) 1 1 = some r'
        ∧ r'.completed = true
        ∧ r'.completed_at = (⟨1, 1, 300, true, some 3⟩ : Progress).completed_at)
    ∧ (⟨1, 1, 300, true, some 9⟩ : Progress).completed_at = some dbE.now :=
  ⟨(C8_completed_at_iff_and_set_once dbD (by decide)).1 [⟨1, 1, ⟨.vint 10, .vbool false⟩⟩],
    (C8_completed_at_iff_and_set_once dbD (by decide)).2.1
      [⟨1, 1, ⟨.vint 10, .vbool false⟩⟩] 1 1 ⟨1, 1, 300, true, some 3⟩ (by decide) (by decide),
    (C8_completed_at_iff_and_set_once dbE (by decide)).2.2
      1 1 ⟨.vint 300, .vbool true⟩ ⟨1, 1, 50, false, none⟩ ⟨1, 1, 300, true, some 9⟩
      (by decide) (by decide) (by decide) (by decide)⟩
